import Mathlib

-- Shallow embedding of the shiftmanager test-fixture layer
-- (src/shiftmanager/tests/conftest.py): the MockCursor and MockBucket
-- fixture classes, and the patched helpers mogrify, id_cols and
-- columns_and_types.

set_option autoImplicit false

/-- State of the `MockCursor` class of conftest.py.  Its `__init__` sets
`statements = []`, `return_rows = []`, `cursor_position = 0`; tests then
assign `return_rows` directly, so the embedding keeps the row and
statement element types abstract. -/
structure MockCursor (Stmt Row : Type) where
  statements : List Stmt
  return_rows : List Row
  cursor_position : Nat

/-- `MockCursor.__init__`: empty statement history, no rows, position 0. -/
def MockCursor.init (Stmt Row : Type) : MockCursor Stmt Row :=
  ⟨[], [], 0⟩

/-- `MockCursor.execute(statement)`: appends the statement to
`self.statements` and returns nothing; the cursor is otherwise untouched. -/
def MockCursor.execute {Stmt Row : Type} (c : MockCursor Stmt Row)
    (statement : Stmt) : MockCursor Stmt Row :=
  ⟨c.statements ++ [statement], c.return_rows, c.cursor_position⟩

/-- `MockCursor.fetchone()`: Python compares
`self.cursor_position > len(self.return_rows) - 1` with integer
arithmetic (so an empty row list gives `0 > -1`, i.e. exhausted), returns
`None` when exhausted, and otherwise returns
`return_rows[cursor_position]` and increments the position.  The pair is
the returned row (`none` models Python `None`) and the post-state; in the
non-exhausted branch the index is in bounds, so `List.get?` returns
`some` of the row. -/
def MockCursor.fetchone {Stmt Row : Type} (c : MockCursor Stmt Row) :
    Option Row × MockCursor Stmt Row :=
  if (c.cursor_position : Int) > (c.return_rows.length : Int) - 1 then
    (none, c)
  else
    (c.return_rows.get? c.cursor_position,
     ⟨c.statements, c.return_rows, c.cursor_position + 1⟩)

/-- `MockCursor.__enter__`: returns `self`, no state change. -/
def MockCursor.enter {Stmt Row : Type} (c : MockCursor Stmt Row) :
    MockCursor Stmt Row :=
  c

/-- `MockCursor.__exit__`: returns `None`, no state change. -/
def MockCursor.exit {Stmt Row : Type} (c : MockCursor Stmt Row) :
    MockCursor Stmt Row :=
  c

/-- `MockCursor.__iter__`: the generator body is
`for row in self.return_rows: yield row` — it only reads
`self.return_rows`, always from the start, and assigns no attribute.  The
embedding returns the yielded rows together with the (unchanged) cursor
state after the iteration is exhausted. -/
def MockCursor.iter {Stmt Row : Type} (c : MockCursor Stmt Row) :
    List Row × MockCursor Stmt Row :=
  (c.return_rows, c)

/-- Iterate `fetchone`, keeping only the final cursor state. -/
def MockCursor.fetchN {Stmt Row : Type} (c : MockCursor Stmt Row) :
    Nat → MockCursor Stmt Row
  | 0 => c
  | n + 1 => (c.fetchone.2).fetchN n

/-- The row returned by the `(i+1)`-th successive `fetchone` call. -/
def MockCursor.nthFetch {Stmt Row : Type} (c : MockCursor Stmt Row)
    (i : Nat) : Option Row :=
  (c.fetchN i).fetchone.1

/-- One operation of the cursor interface exercised by the tests:
`execute(statement)` or `fetchone()`. -/
inductive CursorOp (Stmt : Type) where
  | execute (statement : Stmt)
  | fetchone

/-- Apply one cursor operation (the returned row of `fetchone` is
discarded; only the state evolution matters here). -/
def MockCursor.step {Stmt Row : Type} (c : MockCursor Stmt Row) :
    CursorOp Stmt → MockCursor Stmt Row
  | CursorOp.execute s => c.execute s
  | CursorOp.fetchone => c.fetchone.2

/-- Apply a sequence of cursor operations from left to right. -/
def MockCursor.runOps {Stmt Row : Type} (c : MockCursor Stmt Row) :
    List (CursorOp Stmt) → MockCursor Stmt Row
  | [] => c
  | op :: ops => (c.step op).runOps ops

/-- Execute a list of statements in order. -/
def MockCursor.execAll {Stmt Row : Type} (c : MockCursor Stmt Row) :
    List Stmt → MockCursor Stmt Row
  | [] => c
  | s :: ss => (c.execute s).execAll ss

-- The MockBucket fixture of conftest.py.  `new_key(keypath)` creates a
-- fresh MagicMock, stores it under `keypath` in the `s3keys` dict and
-- returns it; the embedding identifies each created mock by a fresh
-- natural number drawn from a counter.  `delete_keys(keys)` assigns the
-- `recently_deleted_keys` attribute (which does not exist before the
-- first assignment, hence the `Option`); `reset()` empties both.

/-- State of the `MockBucket` class: the `s3keys` dict (as an
association list in insertion order, lookups taking the last binding, as
a Python dict assignment overwrites), the `recently_deleted_keys`
attribute, and the counter producing identities of created key mocks. -/
structure MockBucket where
  s3keys : List (String × Nat)
  recently_deleted_keys : Option (List String)
  next_key_id : Nat

/-- `MockBucket.new_key(keypath)`: stores a fresh key mock under
`keypath` and returns it. -/
def MockBucket.new_key (b : MockBucket) (keypath : String) :
    Nat × MockBucket :=
  (b.next_key_id,
   ⟨b.s3keys ++ [(keypath, b.next_key_id)],
    b.recently_deleted_keys,
    b.next_key_id + 1⟩)

/-- `MockBucket.delete_keys(keys)`: only assigns
`self.recently_deleted_keys = keys`. -/
def MockBucket.delete_keys (b : MockBucket) (keys : List String) :
    MockBucket :=
  ⟨b.s3keys, some keys, b.next_key_id⟩

/-- `MockBucket.reset()`: empties `s3keys` and `recently_deleted_keys`. -/
def MockBucket.reset (b : MockBucket) : MockBucket :=
  ⟨[], some [], b.next_key_id⟩

/-- Python-dict lookup in the `s3keys` association list: the last
binding of a keypath wins, as later dict assignments overwrite. -/
def MockBucket.s3get (b : MockBucket) (keypath : String) : Option Nat :=
  Option.map Prod.snd (List.find? (fun kv => kv.1 == keypath) b.s3keys.reverse)

-- The patched `mogrify` of conftest.py:
--
--   def mogrify(self, batch, parameters=None, execute=False):
--       if isinstance(parameters, collections.Mapping):
--           parameters = dict([(key, adapt(val).getquoted().decode(...))
--                              for key, val in parameters.items()])
--       elif isinstance(parameters, collections.Sequence):
--           parameters = [adapt(val).getquoted() for val in parameters]
--       if parameters:
--           return batch % parameters
--       return batch
--
-- The embedding models the three parameter shapes (None, mapping,
-- sequence), psycopg2 literal adaption for int and str values, and the
-- fragment of the Python percent-formatting operator that adapted
-- parameters can reach: conversions `%s`, `%(key)s` and the literal
-- `%%`, over a right-hand side that is either a dict (mapping mode) or
-- a list (a non-tuple, non-mapping value, which Python treats as a
-- single formatting argument).  Errors raised by the operator are
-- returned in `Except`.  The `execute` argument of the patched mogrify
-- is unused by it and is dropped.

/-- The single-quote character, used by SQL literal quoting. -/
def singleQuote : Char := Char.ofNat 39

/-- A Python value a test passes as a mogrify parameter: an int or a str. -/
inductive PyVal where
  | int (n : Int)
  | str (s : String)

/-- psycopg2 string escaping: each single quote is doubled. -/
def pyEscape (s : String) : String :=
  String.mk (s.data.foldr
    (fun c acc => if c = singleQuote then singleQuote :: singleQuote :: acc else c :: acc)
    [])

/-- `psycopg2.extensions.adapt(val).getquoted()` for the supported value
kinds: ints render in decimal, strings are escaped and wrapped in single
quotes. -/
def adaptQuoted : PyVal → String
  | PyVal.int n => toString n
  | PyVal.str s =>
      String.singleton singleQuote ++ pyEscape s ++ String.singleton singleQuote

/-- The `parameters` argument of mogrify: `None`, a mapping (modelled as
an association list of its items) or a positional sequence. -/
inductive PyParams where
  | none
  | mapping (m : List (String × PyVal))
  | sequence (l : List PyVal)

/-- Errors the percent-formatting operator can raise. -/
inductive PyErr where
  | typeError (msg : String)
  | keyError (key : String)
  | valueError (msg : String)

/-- One parsed item of a percent-format template: a literal character, a
positional conversion `%s`, or a named conversion `%(key)s`. -/
inductive FmtItem where
  | lit (c : Char)
  | pos
  | named (key : String)

/-- Scanner state while parsing a percent-format template. -/
inductive PMode where
  | norm
  | afterPct
  | inKey (acc : List Char)
  | afterKey (key : String)

/-- One step of the template scanner: ordinary text, `%` starting a
conversion, `%%`, `%s`, `%(key)s`; any other conversion character raises
ValueError, as in CPython. -/
def fmtStep : PMode × List FmtItem → Char → Except PyErr (PMode × List FmtItem)
  | (PMode.norm, items), c =>
      if c = '%' then Except.ok (PMode.afterPct, items)
      else Except.ok (PMode.norm, items ++ [FmtItem.lit c])
  | (PMode.afterPct, items), c =>
      if c = '%' then Except.ok (PMode.norm, items ++ [FmtItem.lit '%'])
      else if c = 's' then Except.ok (PMode.norm, items ++ [FmtItem.pos])
      else if c = '(' then Except.ok (PMode.inKey [], items)
      else Except.error (PyErr.valueError "unsupported format character")
  | (PMode.inKey acc, items), c =>
      if c = ')' then Except.ok (PMode.afterKey (String.mk acc.reverse), items)
      else Except.ok (PMode.inKey (c :: acc), items)
  | (PMode.afterKey k, items), c =>
      if c = 's' then Except.ok (PMode.norm, items ++ [FmtItem.named k])
      else Except.error (PyErr.valueError "unsupported format character")

/-- Parse a percent-format template into its items; a template ending
inside a conversion raises ValueError (CPython: incomplete format). -/
def parseFormat (s : String) : Except PyErr (List FmtItem) :=
  match s.data.foldlM fmtStep (PMode.norm, ([] : List FmtItem)) with
  | Except.ok (PMode.norm, items) => Except.ok items
  | Except.ok _ => Except.error (PyErr.valueError "incomplete format")
  | Except.error e => Except.error e

/-- The right-hand side of `batch % parameters` as mogrify builds it: a
dict of adapted strings, or a list of adapted strings. -/
inductive FormatRhs where
  | ofDict (d : List (String × String))
  | ofList (l : List String)

/-- Python-dict lookup in an association list of items: the last binding
wins. -/
def dictGet (d : List (String × String)) (k : String) : Option String :=
  Option.map Prod.snd (List.find? (fun kv => kv.1 == k) d.reverse)

/-- `str()` of the whole right-hand side, used when a single `%s`
consumes a non-tuple argument (the Python 2 `u` repr prefixes are not
reproduced; no claim depends on this text). -/
def pyStrOfRhs : FormatRhs → String
  | FormatRhs.ofList l =>
      "[" ++ String.intercalate ", "
        (l.map (fun s =>
          String.singleton singleQuote ++ s ++ String.singleton singleQuote)) ++ "]"
  | FormatRhs.ofDict d =>
      "\x7b" ++ String.intercalate ", "
        (d.map (fun kv =>
          String.singleton singleQuote ++ kv.1 ++ String.singleton singleQuote
            ++ ": "
            ++ String.singleton singleQuote ++ kv.2 ++ String.singleton singleQuote)) ++ "\x7d"

/-- Interpret parsed format items against the right-hand side, following
CPython's `PyString_Format` for a non-tuple argument: a dict serves keyed
conversions (a missing key raises KeyError) and, like any other
non-tuple value, is itself the single positional argument, so the first
keyless `%s` renders the whole value and a second one raises TypeError
(not enough arguments); a keyed conversion against a non-mapping raises
TypeError (format requires a mapping); at the end, a never-consumed
non-mapping argument raises TypeError (not all arguments converted).
`consumed` records whether the single positional argument was taken. -/
def interpFmt (rhs : FormatRhs) : Bool → List FmtItem → Except PyErr String
  | consumed, [] =>
      (match rhs with
       | FormatRhs.ofDict _ => Except.ok ""
       | FormatRhs.ofList _ =>
           if consumed then Except.ok ""
           else Except.error
             (PyErr.typeError "not all arguments converted during string formatting"))
  | consumed, FmtItem.lit c :: rest =>
      (interpFmt rhs consumed rest).map (fun s => String.mk (c :: s.data))
  | consumed, FmtItem.pos :: rest =>
      if consumed then
        Except.error (PyErr.typeError "not enough arguments for format string")
      else
        (interpFmt rhs true rest).map (fun s => pyStrOfRhs rhs ++ s)
  | consumed, FmtItem.named k :: rest =>
      (match rhs with
       | FormatRhs.ofDict d =>
           (match dictGet d k with
            | some v => (interpFmt rhs consumed rest).map (fun s => v ++ s)
            | Option.none => Except.error (PyErr.keyError k))
       | FormatRhs.ofList _ =>
           Except.error (PyErr.typeError "format requires a mapping"))

/-- `batch % rhs`: parse the template, then interpret it. -/
def pyFormat (batch : String) (rhs : FormatRhs) : Except PyErr String :=
  match parseFormat batch with
  | Except.ok items => interpFmt rhs false items
  | Except.error e => Except.error e

/-- The patched `mogrify(batch, parameters)`: a mapping has each value
adapted (and decoded); a sequence has each element adapted; then the
converted parameters are tested for truthiness (`if parameters:`) — an
empty dict, empty list or `None` leaves the batch untouched — and
otherwise `batch % parameters` is rendered. -/
def mogrify (batch : String) (parameters : PyParams) : Except PyErr String :=
  match parameters with
  | PyParams.none => Except.ok batch
  | PyParams.mapping m =>
      let d := m.map (fun kv => (kv.1, adaptQuoted kv.2))
      if d.isEmpty then Except.ok batch
      else pyFormat batch (FormatRhs.ofDict d)
  | PyParams.sequence l =>
      let a := l.map adaptQuoted
      if a.isEmpty then Except.ok batch
      else pyFormat batch (FormatRhs.ofList a)

/-- Count of positional `%s` conversions among parsed format items. -/
def countPos : List FmtItem → Nat
  | [] => 0
  | FmtItem.pos :: rest => countPos rest + 1
  | _ :: rest => countPos rest

/-- The patched `_get_identity_columns` of conftest.py (`id_cols`): the
table `my_identity_table` has the identity column set containing
`id_col`; every other table name falls through the `if` and returns
Python `None`. -/
def id_cols (table_name : String) : Option (Finset String) :=
  if table_name = "my_identity_table" then some {"id_col"} else none

/-- The patched `_get_columns_and_types` of conftest.py: a fixed list of
column name and type pairs, for every table and column-string argument. -/
def columns_and_types (table : String) (col_str : String) :
    List (String × String) :=
  [("foo", "boolean"),
   ("bar", "numeric(23,2)"),
   ("baz", "character varying(256)")]

-- Helper lemmas about MockCursor.fetchone.

theorem fetchone_of_ge {Stmt Row : Type} (c : MockCursor Stmt Row)
    (h : c.return_rows.length ≤ c.cursor_position) :
    c.fetchone = (none, c) := by
  have hc : (c.cursor_position : Int) > (c.return_rows.length : Int) - 1 := by
    omega
  unfold MockCursor.fetchone
  rw [if_pos hc]

theorem fetchone_of_lt {Stmt Row : Type} (c : MockCursor Stmt Row)
    (h : c.cursor_position < c.return_rows.length) :
    c.fetchone = (c.return_rows.get? c.cursor_position,
      ⟨c.statements, c.return_rows, c.cursor_position + 1⟩) := by
  have hc : ¬ ((c.cursor_position : Int) > (c.return_rows.length : Int) - 1) := by
    omega
  unfold MockCursor.fetchone
  rw [if_neg hc]

theorem fetchone_fst_of_lt {Stmt Row : Type} (c : MockCursor Stmt Row)
    (h : c.cursor_position < c.return_rows.length) :
    c.fetchone.1 = c.return_rows.get? c.cursor_position := by
  rw [fetchone_of_lt c h]

theorem fetchone_snd_pos_of_lt {Stmt Row : Type} (c : MockCursor Stmt Row)
    (h : c.cursor_position < c.return_rows.length) :
    (c.fetchone.2).cursor_position = c.cursor_position + 1 := by
  rw [fetchone_of_lt c h]

theorem fetchone_frame {Stmt Row : Type} (c : MockCursor Stmt Row) :
    (c.fetchone.2).statements = c.statements ∧
    (c.fetchone.2).return_rows = c.return_rows := by
  by_cases h : c.cursor_position < c.return_rows.length
  · rw [fetchone_of_lt c h]
    exact ⟨rfl, rfl⟩
  · rw [fetchone_of_ge c (by omega)]
    exact ⟨rfl, rfl⟩

theorem fetchN_frame {Stmt Row : Type} (n : Nat) (c : MockCursor Stmt Row) :
    (c.fetchN n).statements = c.statements ∧
    (c.fetchN n).return_rows = c.return_rows := by
  induction n generalizing c with
  | zero => exact ⟨rfl, rfl⟩
  | succ n ih =>
    have h1 := fetchone_frame c
    have h2 := ih c.fetchone.2
    simp only [MockCursor.fetchN]
    exact ⟨h2.1.trans h1.1, h2.2.trans h1.2⟩

theorem fetchN_pos {Stmt Row : Type} (n : Nat) (c : MockCursor Stmt Row)
    (h : c.cursor_position ≤ c.return_rows.length) :
    (c.fetchN n).cursor_position = min (c.cursor_position + n) c.return_rows.length := by
  induction n generalizing c with
  | zero =>
    simp only [MockCursor.fetchN]
    omega
  | succ n ih =>
    simp only [MockCursor.fetchN]
    by_cases hlt : c.cursor_position < c.return_rows.length
    · have hp := fetchone_snd_pos_of_lt c hlt
      have hr := (fetchone_frame c).2
      rw [ih c.fetchone.2 (by rw [hp, hr]; omega), hp, hr]
      omega
    · have h2 : c.fetchone.2 = c := by rw [fetchone_of_ge c (by omega)]
      rw [h2, ih c h]
      omega

/-- C1: for every list of materialized result rows, the `(i+1)`-th
successive `fetchone` call on a fresh cursor holding those rows returns
`some` of the `i`-th row of `return_rows` when `i` is in range, and
`none` (Python `None`) for every `i` past the end; `fetchone` is total,
so no call raises. -/
theorem fetchone_returns_rows_in_order_then_none
    (Stmt Row : Type) (stmts : List Stmt) (rows : List Row) (i : Nat) :
    (⟨stmts, rows, 0⟩ : MockCursor Stmt Row).nthFetch i = rows.get? i := by
  have hrows : ((⟨stmts, rows, 0⟩ : MockCursor Stmt Row).fetchN i).return_rows = rows :=
    (fetchN_frame i _).2
  have hpos : ((⟨stmts, rows, 0⟩ : MockCursor Stmt Row).fetchN i).cursor_position =
      min (0 + i) rows.length :=
    fetchN_pos i _ (Nat.zero_le _)
  unfold MockCursor.nthFetch
  by_cases hi : i < rows.length
  · have hlt : ((⟨stmts, rows, 0⟩ : MockCursor Stmt Row).fetchN i).cursor_position <
        ((⟨stmts, rows, 0⟩ : MockCursor Stmt Row).fetchN i).return_rows.length := by
      rw [hpos, hrows]
      omega
    rw [fetchone_fst_of_lt _ hlt, hrows, hpos]
    congr 1
    omega
  · have hge : ((⟨stmts, rows, 0⟩ : MockCursor Stmt Row).fetchN i).return_rows.length ≤
        ((⟨stmts, rows, 0⟩ : MockCursor Stmt Row).fetchN i).cursor_position := by
      rw [hpos, hrows]
      omega
    rw [fetchone_of_ge _ hge]
    exact (List.get?_eq_none.mpr (by omega)).symm

-- Helper lemmas for operation sequences.

theorem step_frame {Stmt Row : Type} (c : MockCursor Stmt Row) (op : CursorOp Stmt) :
    (c.step op).return_rows = c.return_rows ∧
    c.cursor_position ≤ (c.step op).cursor_position ∧
    (c.step op).cursor_position ≤ max c.cursor_position c.return_rows.length := by
  cases op with
  | execute s => exact ⟨rfl, Nat.le_refl _, Nat.le_max_left _ _⟩
  | fetchone =>
    simp only [MockCursor.step]
    by_cases h : c.cursor_position < c.return_rows.length
    · have h2 := fetchone_snd_pos_of_lt c h
      have h3 := (fetchone_frame c).2
      exact ⟨h3, by omega, by omega⟩
    · have h2 : c.fetchone.2 = c := by rw [fetchone_of_ge c (by omega)]
      rw [h2]
      exact ⟨rfl, Nat.le_refl _, Nat.le_max_left _ _⟩

theorem runOps_spec {Stmt Row : Type} (ops : List (CursorOp Stmt))
    (c : MockCursor Stmt Row)
    (h : c.cursor_position ≤ c.return_rows.length) :
    (c.runOps ops).return_rows = c.return_rows ∧
    c.cursor_position ≤ (c.runOps ops).cursor_position ∧
    (c.runOps ops).cursor_position ≤ (c.runOps ops).return_rows.length := by
  induction ops generalizing c with
  | nil => exact ⟨rfl, Nat.le_refl _, h⟩
  | cons op ops ih =>
    simp only [MockCursor.runOps]
    obtain ⟨f1, f2, f3⟩ := step_frame c op
    obtain ⟨g1, g2, g3⟩ := ih (c.step op) (by rw [f1]; omega)
    exact ⟨g1.trans f1, f2.trans g2, g3⟩

theorem runOps_append {Stmt Row : Type} (c : MockCursor Stmt Row)
    (l1 l2 : List (CursorOp Stmt)) :
    c.runOps (l1 ++ l2) = (c.runOps l1).runOps l2 := by
  induction l1 generalizing c with
  | nil => rfl
  | cons op ops ih =>
    simp only [List.cons_append, MockCursor.runOps]
    exact ih _

/-- C4: over any sequence of `execute` and `fetchone` operations run on a
cursor whose position is within the bound of its materialized rows (as
any cursor built by `__init__` is), the row position at any earlier
point of the run is at most the final position (monotonically
non-decreasing), and the final position never exceeds the number of
materialized result rows. -/
theorem cursor_position_monotone_bounded
    (Stmt Row : Type) (c : MockCursor Stmt Row)
    (ops l1 l2 : List (CursorOp Stmt))
    (hinv : c.cursor_position ≤ c.return_rows.length)
    (hsplit : ops = l1 ++ l2) :
    (c.runOps l1).cursor_position ≤ (c.runOps ops).cursor_position ∧
    (c.runOps ops).cursor_position ≤ (c.runOps ops).return_rows.length := by
  subst hsplit
  rw [runOps_append]
  obtain ⟨a1, a2, a3⟩ := runOps_spec l1 c hinv
  obtain ⟨b1, b2, b3⟩ := runOps_spec l2 (c.runOps l1) a3
  exact ⟨b2, b3⟩

/-- Witness for C4 at a concrete cursor and operation sequence. -/
theorem cursor_position_monotone_bounded_witness :
    (⟨["q"], [10, 20], 0⟩ : MockCursor String Nat).cursor_position ≤
      (⟨["q"], [10, 20], 0⟩ : MockCursor String Nat).return_rows.length ∧
    (((⟨["q"], [10, 20], 0⟩ : MockCursor String Nat).runOps
        [CursorOp.fetchone]).cursor_position ≤
      ((⟨["q"], [10, 20], 0⟩ : MockCursor String Nat).runOps
        ([CursorOp.fetchone] ++
         [CursorOp.execute "w", CursorOp.fetchone, CursorOp.fetchone])).cursor_position ∧
    ((⟨["q"], [10, 20], 0⟩ : MockCursor String Nat).runOps
        ([CursorOp.fetchone] ++
         [CursorOp.execute "w", CursorOp.fetchone, CursorOp.fetchone])).cursor_position ≤
      ((⟨["q"], [10, 20], 0⟩ : MockCursor String Nat).runOps
        ([CursorOp.fetchone] ++
         [CursorOp.execute "w", CursorOp.fetchone, CursorOp.fetchone])).return_rows.length) :=
  ⟨by decide,
   cursor_position_monotone_bounded String Nat ⟨["q"], [10, 20], 0⟩ _ _ _
     (by decide) rfl⟩

/-- C7: executing statements `s1..sn` in order appends exactly
`[s1, ..., sn]` to the cursor's statement history (so a fresh cursor
records exactly that list, in execution order), and `execute` changes
neither `return_rows` nor `cursor_position`. -/
theorem execute_records_statements
    (Stmt Row : Type) (c : MockCursor Stmt Row) (ss : List Stmt) :
    (c.execAll ss).statements = c.statements ++ ss ∧
    (c.execAll ss).return_rows = c.return_rows ∧
    (c.execAll ss).cursor_position = c.cursor_position ∧
    ((MockCursor.init Stmt Row).execAll ss).statements = ss := by
  have main : ∀ (ss : List Stmt) (d : MockCursor Stmt Row),
      (d.execAll ss).statements = d.statements ++ ss ∧
      (d.execAll ss).return_rows = d.return_rows ∧
      (d.execAll ss).cursor_position = d.cursor_position := by
    intro ss
    induction ss with
    | nil => exact fun d => ⟨(List.append_nil _).symm, rfl, rfl⟩
    | cons s ss ih =>
      intro d
      obtain ⟨i1, i2, i3⟩ := ih (d.execute s)
      refine ⟨?_, i2, i3⟩
      simp only [MockCursor.execAll]
      rw [i1]
      show d.statements ++ [s] ++ ss = d.statements ++ (s :: ss)
      simp
  obtain ⟨m1, m2, m3⟩ := main ss c
  refine ⟨m1, m2, m3, ?_⟩
  rw [(main ss _).1]
  simp [MockCursor.init]

/-- C9: iterating a cursor yields exactly `return_rows` from the
beginning whatever the current `cursor_position` is, leaves the cursor
state (in particular `cursor_position`) unchanged, and interleaved
`fetchone` calls do not change what iteration yields. -/
theorem iter_independent_of_position
    (Stmt Row : Type) (c : MockCursor Stmt Row) (n : Nat) :
    c.iter.1 = c.return_rows ∧
    c.iter.2 = c ∧
    (c.fetchN n).iter.1 = c.iter.1 :=
  ⟨rfl, rfl, (fetchN_frame n c).2⟩

/-- C8: `delete_keys(ks)` only assigns the `recently_deleted_keys`
attribute to `ks`; the bucket's `s3keys` mapping, every binding it
holds (so every key previously created with `new_key`), and the key-mock
counter are unchanged. -/
theorem delete_keys_frame (b : MockBucket) (ks : List String) :
    (b.delete_keys ks).recently_deleted_keys = some ks ∧
    (b.delete_keys ks).s3keys = b.s3keys ∧
    (b.delete_keys ks).next_key_id = b.next_key_id ∧
    ∀ p : String, (b.delete_keys ks).s3get p = b.s3get p :=
  ⟨rfl, rfl, rfl, fun _ => rfl⟩

/-- C5: the patched `_get_identity_columns` reports the identity column
set containing exactly `id_col` for the table `my_identity_table`, and
reports no identity columns (Python `None`) for every other table name. -/
theorem id_cols_spec :
    id_cols "my_identity_table" = some {"id_col"} ∧
    ∀ t : String, t ≠ "my_identity_table" → id_cols t = none := by
  constructor
  · rfl
  · intro t ht
    simp [id_cols, ht]

/-- Witness for C5 at a concrete non-identity table name. -/
theorem id_cols_spec_witness :
    id_cols "my_identity_table" = some {"id_col"} ∧
    ("some_other_table" ≠ "my_identity_table" ∧
      id_cols "some_other_table" = none) :=
  ⟨id_cols_spec.1, by decide, id_cols_spec.2 "some_other_table" (by decide)⟩

/-- C6: the patched `_get_columns_and_types` returns the fixed
three-element column list for every table and column-string argument. -/
theorem columns_and_types_fixed (table col_str : String) :
    columns_and_types table col_str =
      [("foo", "boolean"),
       ("bar", "numeric(23,2)"),
       ("baz", "character varying(256)")] :=
  rfl

-- Helper lemmas about the percent-formatting interpreter.

theorem interpFmt_lit (rhs : FormatRhs) (consumed : Bool) (c : Char)
    (rest : List FmtItem) :
    interpFmt rhs consumed (FmtItem.lit c :: rest) =
      (interpFmt rhs consumed rest).map (fun s => String.mk (c :: s.data)) :=
  rfl

theorem interpFmt_pos_true (rhs : FormatRhs) (rest : List FmtItem) :
    interpFmt rhs true (FmtItem.pos :: rest) =
      Except.error (PyErr.typeError "not enough arguments for format string") :=
  rfl

theorem interpFmt_pos_false (rhs : FormatRhs) (rest : List FmtItem) :
    interpFmt rhs false (FmtItem.pos :: rest) =
      (interpFmt rhs true rest).map (fun s => pyStrOfRhs rhs ++ s) :=
  rfl

theorem interpFmt_named_list (l : List String) (consumed : Bool) (k : String)
    (rest : List FmtItem) :
    interpFmt (FormatRhs.ofList l) consumed (FmtItem.named k :: rest) =
      Except.error (PyErr.typeError "format requires a mapping") :=
  rfl

theorem exceptMap_error {α β : Type} (f : α → β) (e : PyErr) :
    (Except.error e : Except PyErr α).map f = Except.error e :=
  rfl

theorem interpFmt_list_named_error (items : List FmtItem) :
    ∀ (l : List String) (consumed : Bool) (k : String),
      FmtItem.named k ∈ items →
      ∃ msg, interpFmt (FormatRhs.ofList l) consumed items =
        Except.error (PyErr.typeError msg) := by
  induction items with
  | nil =>
    intro l consumed k hk
    cases hk
  | cons it rest ih =>
    intro l consumed k hk
    cases it with
    | lit ch =>
      have hk2 : FmtItem.named k ∈ rest := by
        rcases List.mem_cons.mp hk with h | h
        · simp at h
        · exact h
      obtain ⟨msg, hm⟩ := ih l consumed k hk2
      exact ⟨msg, by rw [interpFmt_lit, hm, exceptMap_error]⟩
    | pos =>
      cases consumed with
      | true => exact ⟨_, interpFmt_pos_true _ _⟩
      | false =>
        have hk2 : FmtItem.named k ∈ rest := by
          rcases List.mem_cons.mp hk with h | h
          · simp at h
          · exact h
        obtain ⟨msg, hm⟩ := ih l true k hk2
        exact ⟨msg, by rw [interpFmt_pos_false, hm, exceptMap_error]⟩
    | named k2 => exact ⟨_, interpFmt_named_list _ _ _ _⟩

theorem interpFmt_dict_overflow (items : List FmtItem) :
    ∀ (d : List (String × String)) (consumed : Bool),
      (∀ k, FmtItem.named k ∉ items) →
      (if consumed then 1 else 2) ≤ countPos items →
      ∃ msg, interpFmt (FormatRhs.ofDict d) consumed items =
        Except.error (PyErr.typeError msg) := by
  induction items with
  | nil =>
    intro d consumed _ hcnt
    cases consumed with
    | true => simp [countPos] at hcnt
    | false => simp [countPos] at hcnt
  | cons it rest ih =>
    intro d consumed hnk hcnt
    cases it with
    | lit ch =>
      have hnk2 : ∀ k, FmtItem.named k ∉ rest :=
        fun k hk => hnk k (List.mem_cons_of_mem _ hk)
      have hcnt2 : (if consumed then 1 else 2) ≤ countPos rest := by
        have he : countPos (FmtItem.lit ch :: rest) = countPos rest := rfl
        rw [← he]
        exact hcnt
      obtain ⟨msg, hm⟩ := ih d consumed hnk2 hcnt2
      exact ⟨msg, by rw [interpFmt_lit, hm, exceptMap_error]⟩
    | pos =>
      cases consumed with
      | true => exact ⟨_, interpFmt_pos_true _ _⟩
      | false =>
        have hnk2 : ∀ k, FmtItem.named k ∉ rest :=
          fun k hk => hnk k (List.mem_cons_of_mem _ hk)
        have hc2 : 2 ≤ countPos rest + 1 := by
          have he : countPos (FmtItem.pos :: rest) = countPos rest + 1 := rfl
          rw [← he]
          simpa using hcnt
        have hcnt2 : (if true then 1 else 2 : Nat) ≤ countPos rest := by
          simp only [eq_self_iff_true, if_true]
          omega
        obtain ⟨msg, hm⟩ := ih d true hnk2 hcnt2
        exact ⟨msg, by rw [interpFmt_pos_false, hm, exceptMap_error]⟩
    | named k2 => exact absurd (List.mem_cons_self _ _) (hnk k2)

theorem mogrify_sequence_ne (batch : String) (l : List PyVal) (hl : l ≠ []) :
    mogrify batch (PyParams.sequence l) =
      pyFormat batch (FormatRhs.ofList (l.map adaptQuoted)) := by
  cases l with
  | nil => exact absurd rfl hl
  | cons a as => rfl

theorem mogrify_mapping_ne (batch : String) (m : List (String × PyVal))
    (hm : m ≠ []) :
    mogrify batch (PyParams.mapping m) =
      pyFormat batch
        (FormatRhs.ofDict (m.map (fun kv => (kv.1, adaptQuoted kv.2)))) := by
  cases m with
  | nil => exact absurd rfl hm
  | cons a as => rfl

theorem pyFormat_ok (batch : String) (items : List FmtItem) (rhs : FormatRhs)
    (h : parseFormat batch = Except.ok items) :
    pyFormat batch rhs = interpFmt rhs false items := by
  unfold pyFormat
  rw [h]

/-- C2 counterexample: two parameter shapes inconsistent with the
template placeholders on which mogrify does not raise a type error.  A
purely positional template rendered against a nonempty mapping succeeds,
because Python treats a non-tuple right-hand side of a single `%s` as the
one positional argument; and a named-placeholder template with an empty
positional sequence is returned untouched, because an empty sequence is
falsy so no substitution is attempted. -/
theorem mogrify_shape_mismatch_counterexample :
    (∃ s, mogrify "%s" (PyParams.mapping [("a", PyVal.int 1)]) = Except.ok s) ∧
    mogrify "%(a)s" (PyParams.sequence []) = Except.ok "%(a)s" := by
  constructor
  · exact ⟨_, rfl⟩
  · rfl

/-- C2 (amended): if the template contains a named placeholder
`%(key)s` and a nonempty positional sequence is given, mogrify raises a
TypeError; and if the template is positional-only (no named placeholder)
with at least two `%s` placeholders and a nonempty mapping is given,
mogrify raises a TypeError.  (A positional-only template with a single
`%s` renders a nonempty mapping as the single value without error, and
empty parameters return the template unchanged, as the counterexample
shows.) -/
theorem mogrify_shape_mismatch_amended :
    (∀ (batch : String) (items : List FmtItem) (k : String) (l : List PyVal),
        parseFormat batch = Except.ok items →
        FmtItem.named k ∈ items →
        l ≠ [] →
        ∃ msg, mogrify batch (PyParams.sequence l) =
          Except.error (PyErr.typeError msg)) ∧
    (∀ (batch : String) (items : List FmtItem) (m : List (String × PyVal)),
        parseFormat batch = Except.ok items →
        (∀ k, FmtItem.named k ∉ items) →
        2 ≤ countPos items →
        m ≠ [] →
        ∃ msg, mogrify batch (PyParams.mapping m) =
          Except.error (PyErr.typeError msg)) := by
  constructor
  · intro batch items k l hp hk hl
    rw [mogrify_sequence_ne batch l hl, pyFormat_ok batch items _ hp]
    exact interpFmt_list_named_error items _ false k hk
  · intro batch items m hp hnk hcnt hm
    rw [mogrify_mapping_ne batch m hm, pyFormat_ok batch items _ hp]
    refine interpFmt_dict_overflow items _ false hnk ?_
    simpa using hcnt

/-- Witness for the amended C2 at concrete templates and parameters. -/
theorem mogrify_shape_mismatch_witness :
    (∃ msg, mogrify "%(a)s" (PyParams.sequence [PyVal.int 1]) =
      Except.error (PyErr.typeError msg)) ∧
    (∃ msg, mogrify "%s %s" (PyParams.mapping [("a", PyVal.int 1)]) =
      Except.error (PyErr.typeError msg)) := by
  constructor
  · exact mogrify_shape_mismatch_amended.1 "%(a)s" [FmtItem.named "a"] "a"
      [PyVal.int 1] rfl (by simp) (by simp)
  · exact mogrify_shape_mismatch_amended.2 "%s %s"
      [FmtItem.pos, FmtItem.lit ' ', FmtItem.pos] [("a", PyVal.int 1)] rfl
      (by intro k hk; simp at hk) (by decide) (by simp)

/-- C3: mogrify is a deterministic function of its template and
parameters — equal inputs give equal rendered results. -/
theorem mogrify_deterministic (t1 t2 : String) (p1 p2 : PyParams)
    (ht : t1 = t2) (hp : p1 = p2) :
    mogrify t1 p1 = mogrify t2 p2 := by
  rw [ht, hp]

/-- Witness for C3 at a concrete template and parameter mapping. -/
theorem mogrify_deterministic_witness :
    mogrify "select %(a)s" (PyParams.mapping [("a", PyVal.str "x")]) =
      mogrify "select %(a)s" (PyParams.mapping [("a", PyVal.str "x")]) :=
  mogrify_deterministic _ _ _ _ rfl rfl

/-- C10: with parameters `None`, an empty mapping or an empty sequence,
mogrify returns every template unchanged: the converted parameters are
falsy, so `batch % parameters` is never attempted, whatever placeholders
the template contains. -/
theorem mogrify_empty_params_identity (t : String) :
    mogrify t PyParams.none = Except.ok t ∧
    mogrify t (PyParams.mapping []) = Except.ok t ∧
    mogrify t (PyParams.sequence []) = Except.ok t :=
  ⟨rfl, rfl, rfl⟩
